import Mathlib

/-!
# Loomis head geometry engine: shallow embedding and verification

Shallow embedding of the parametric 3D geometry and projection engine of the
`loomis-head` repository:

* `splitFrontBack` and `clipToSideBand` (polyline utilities) are embedded
  over exact rationals: they use only field operations and comparisons.
* `calculateLandmarks`, `transformLandmarks`, `projectLandmarks` and the
  plane-circle generator are embedded over the reals.  JavaScript numbers
  are idealised as `JsNum := Option ℝ`: `some r` is a finite value, `none`
  stands for a non-finite value (NaN or ±Infinity).  Arithmetic propagates
  `none`, `Math.sqrt` of a negative argument and division by zero produce
  `none`, matching the fact that in JavaScript these produce NaN / ±Infinity
  (all non-finite, and no operation in the embedded code maps a non-finite
  value back to a finite one).
-/

namespace Loomis

/-- A 3-component vector, the embedding of `THREE.Vector3` (component type
is a parameter: `ℚ` for the exact polyline utilities, `JsNum` or `ℝ` for the
landmark pipeline). -/
@[ext]
structure Vec3 (α : Type) where
  x : α
  y : α
  z : α
deriving DecidableEq, Repr

/-! ## Visibility splitter (`splitFrontBack`, from the geometry utilities) -/

/-- Result record of `splitFrontBack`: lists of front runs and back runs. -/
structure FrontBack where
  front : List (List (Vec3 ℚ))
  back : List (List (Vec3 ℚ))
deriving DecidableEq, Repr

/-- The loop of `splitFrontBack`, with the loop state (`currentFront`,
`currentBack`) as accumulators.  Each JS iteration classifies the point by
`z >= 0`; on a classification change the opposite current run is flushed
onto its output list (here: emitted positionally in front of the runs
produced by the rest of the traversal, which is the same order as the JS
`push`es).  The base case is the trailing flush after the loop. -/
def sfbAux : List (Vec3 ℚ) → List (Vec3 ℚ) → List (Vec3 ℚ) →
    List (List (Vec3 ℚ)) × List (List (Vec3 ℚ))
  | [], cf, cb =>
      ((if cf = [] then [] else [cf]), (if cb = [] then [] else [cb]))
  | p :: rest, cf, cb =>
      if 0 ≤ p.z then
        if cb = [] then
          sfbAux rest (cf ++ [p]) cb
        else
          let r := sfbAux rest (cf ++ [p]) []
          (r.1, cb :: r.2)
      else
        if cf = [] then
          sfbAux rest cf (cb ++ [p])
        else
          let r := sfbAux rest [] (cb ++ [p])
          (cf :: r.1, r.2)

/-- `splitFrontBack` from the geometry utilities: split a point sequence into
maximal runs of camera-front (`z >= 0`) and camera-back (`z < 0`) points. -/
def splitFrontBack (points : List (Vec3 ℚ)) : FrontBack :=
  let r := sfbAux points [] []
  ⟨r.1, r.2⟩

/-! ## Side-band clipper (`clipToSideBand`, from the geometry utilities) -/

/-- `EPS` from the geometry utilities. -/
def EPS : ℚ := 1 / 1000000

/-- `lerp3`: linear interpolation of two points
(`THREE.Vector3.lerpVectors`). -/
def lerp3 (p0 p1 : Vec3 ℚ) (t : ℚ) : Vec3 ℚ :=
  ⟨p0.x + t * (p1.x - p0.x), p0.y + t * (p1.y - p0.y), p0.z + t * (p1.z - p0.z)⟩

/-- `intersectX`: intersection of segment `p0 p1` with the plane
`x = boundary`; `none` when the horizontal delta is below `EPS` or the
crossing parameter lies outside `[0, 1]`. -/
def intersectX (p0 p1 : Vec3 ℚ) (boundary : ℚ) : Option (Vec3 ℚ) :=
  let dx := p1.x - p0.x
  if |dx| < EPS then none
  else
    let t := (boundary - p0.x) / dx
    if 0 ≤ t ∧ t ≤ 1 then some (lerp3 p0 p1 t) else none

/-- The `isInside` predicate of `clipToSideBand`. -/
def isInside (d : ℚ) (p : Vec3 ℚ) : Bool := |p.x| ≤ d + EPS

/-- The edge loop of `clipToSideBand` (iterations `i ≥ 1` of the JS loop):
`prev` is `points[i-1]`, the list argument holds `points[i..]`, `cur` is
`currentSegment`.  Segments closed by an iteration are emitted in front of
those produced by the rest of the traversal (same order as the JS
`push`es); the base case is the trailing `currentSegment` flush. -/
def clipAux (d : ℚ) : Vec3 ℚ → List (Vec3 ℚ) → List (Vec3 ℚ) →
    List (List (Vec3 ℚ))
  | _, [], cur => if 2 ≤ cur.length then [cur] else []
  | prev, curr :: rest, cur =>
      match isInside d prev, isInside d curr with
      | true, true =>
          clipAux d curr rest (cur ++ [curr])
      | true, false =>
          let boundary := if d < curr.x then d else -d
          let cur' := match intersectX prev curr boundary with
            | some q => cur ++ [q]
            | none => cur
          (if 2 ≤ cur'.length then [cur'] else []) ++ clipAux d curr rest []
      | false, true =>
          let boundary := if d < prev.x then d else -d
          let newCur := match intersectX prev curr boundary with
            | some q => [q, curr]
            | none => [curr]
          clipAux d curr rest newCur
      | false, false =>
          if (prev.x < -d ∧ d < curr.x) ∨ (d < prev.x ∧ curr.x < -d) then
            match intersectX prev curr (-d), intersectX prev curr d with
            | some i1, some i2 =>
                (if prev.x < curr.x then [[i1, i2]] else [[i2, i1]]) ++
                  clipAux d curr rest cur
            | _, _ => clipAux d curr rest cur
          else
            clipAux d curr rest cur

/-- `clipToSideBand` from the geometry utilities: clip an open polyline to
the band `|x| ≤ d`, returning the list of surviving segments. -/
def clipToSideBand (points : List (Vec3 ℚ)) (d : ℚ) : List (List (Vec3 ℚ)) :=
  if points.length < 2 then []
  else
    match points with
    | [] => []
    | p0 :: rest => clipAux d p0 rest (if isInside d p0 then [p0] else [])

/-! ## JavaScript numbers for the landmark pipeline -/

/-- A JavaScript number: `some r` for a finite value, `none` for a
non-finite value (NaN or ±Infinity). -/
abbrev JsNum : Type := Option ℝ

/-- Embed a finite real as a JavaScript number. -/
def jfin (r : ℝ) : JsNum := some r

/-- JavaScript addition (non-finite operands give a non-finite result). -/
def jadd : JsNum → JsNum → JsNum
  | some a, some b => some (a + b)
  | _, _ => none

/-- JavaScript subtraction. -/
def jsub : JsNum → JsNum → JsNum
  | some a, some b => some (a - b)
  | _, _ => none

/-- JavaScript multiplication.  `0 * NaN = NaN` and `0 * ±Infinity = NaN`,
so a non-finite operand always yields a non-finite result. -/
def jmul : JsNum → JsNum → JsNum
  | some a, some b => some (a * b)
  | _, _ => none

/-- JavaScript unary minus. -/
def jneg : JsNum → JsNum
  | some a => some (-a)
  | none => none

/-- JavaScript division by a finite denominator: division by zero yields
±Infinity (or NaN), i.e. a non-finite value.  (No code embedded here ever
divides by a non-finite value.) -/
noncomputable def jdiv : JsNum → JsNum → JsNum
  | some a, some b => if b = 0 then none else some (a / b)
  | _, _ => none

/-- `Math.sqrt`: NaN (non-finite) on a negative argument. -/
noncomputable def jsqrt : JsNum → JsNum
  | some a => if a < 0 then none else some (Real.sqrt a)
  | none => none

/-- `Math.round` (`round(x) = ⌊x + 1/2⌋` for finite `x`; NaN / ±Infinity
round to themselves, i.e. stay non-finite). -/
noncomputable def jround : JsNum → Option ℤ
  | some a => some ⌊a + 1 / 2⌋
  | none => none

/-! ## Data model of the landmark pipeline -/

/-- `Landmark` record: `{name, position, color?}`. -/
structure Landmark where
  name : String
  position : Vec3 JsNum
  color : Option String

/-- `ProjectedLandmark` record: `{name, x, y, visible}` (`x`, `y` are the
rounded pixel coordinates; `visible` is the proposition that the point
faces the camera). -/
structure ProjectedLandmark where
  name : String
  x : Option ℤ
  y : Option ℤ
  visible : Prop

/-- `THREE.Quaternion` (components as supplied by the rotation store are
finite reals). -/
structure Quat where
  x : ℝ
  y : ℝ
  z : ℝ
  w : ℝ

/-- The identity quaternion `new THREE.Quaternion()`. -/
def identityQuat : Quat := ⟨0, 0, 0, 1⟩

/-- Pan offset `{x, y}`. -/
structure Pan where
  x : ℝ
  y : ℝ

/-- `HeadParams`: the flat record of head-shape ratios. -/
structure HeadParams where
  radius : ℝ
  sideCut : ℝ
  hairlinePos : ℝ
  browPos : ℝ
  eyeLinePos : ℝ
  nosePos : ℝ
  mouthPos : ℝ
  eyeWidth : ℝ
  noseWidth : ℝ
  mouthWidth : ℝ
  eyeCurve : ℝ
  noseCurve : ℝ
  mouthCurve : ℝ
  chinPos : ℝ
  chinWidth : ℝ
  chinCurve : ℝ
  chinLineCurve : ℝ
  jawDrop : ℝ
  jawWidth : ℝ

/-! ## Parametric head model (`landmarks.ts`) -/

/-- `getFaceCurveZ`: z-position on the face curve for a given y-position.
At or above the equator the feature sits at the sphere front (`radius`);
below, `t = yPos / chinY` is eased quadratically and blends
`radius → chinZ`.  The division is a JavaScript division (non-finite when
`chinY = 0`). -/
noncomputable def getFaceCurveZ (yPos radius chinY chinZ : ℝ) : JsNum :=
  if 0 ≤ yPos then jfin radius
  else
    let t := jdiv (jfin yPos) (jfin chinY)
    let tEased := jmul t t
    jadd (jfin radius) (jmul tEased (jfin (chinZ - radius)))

/-- `getPointOnSphereFront` (local helper of `calculateLandmarks`): point on
the sphere's front surface at the given y ratio; the square root is guarded
by `rSquared > 0`, so the result is always finite. -/
noncomputable def getPointOnSphereFront (yRatio radius : ℝ) : Vec3 JsNum :=
  let y := yRatio * radius
  let rSquared := radius * radius - y * y
  let z := if 0 < rSquared then Real.sqrt rSquared else 0
  ⟨jfin 0, jfin y, jfin z⟩

/-- `calculateRimRadius` (geometry utilities): radius of the circle exposed
by slicing a sphere of radius `R` at distance `d` from center, with the
negative radicand clamped to 0 by `Math.max`. -/
noncomputable def calculateRimRadius (sphereRadius cutDistance : ℝ) : ℝ :=
  Real.sqrt (max 0 (sphereRadius * sphereRadius - cutDistance * cutDistance))

/-- `calculateLandmarks`: the fixed, ordered list of named landmarks in
head space.  Note that the rim radius here is the inline
`Math.sqrt(radius² − cutDistance²)` of `landmarks.ts`, without the
`Math.max(0, ·)` clamp of `calculateRimRadius`. -/
noncomputable def calculateLandmarks (p : HeadParams) : List Landmark :=
  let chinY := -p.radius - p.chinPos * p.radius
  let chinZ := p.radius - p.chinLineCurve * p.radius
  let eyeLineY := p.eyeLinePos * p.radius
  let noseLineY := p.nosePos * p.radius
  let mouthLineY := p.mouthPos * p.radius
  let eyeWidthHalf := p.eyeWidth * p.radius
  let noseWidthHalf := p.noseWidth * p.radius
  let mouthWidthHalf := p.mouthWidth * p.radius
  let chinWidthHalf := p.chinWidth * p.radius
  let eyeCurveDepth := p.eyeCurve * p.radius
  let noseCurveDepth := p.noseCurve * p.radius
  let mouthCurveDepth := p.mouthCurve * p.radius
  let chinCurveHeight := p.chinCurve * p.radius
  let cutDistance := p.sideCut * p.radius
  let rimRadius := jsqrt (jfin (p.radius * p.radius - cutDistance * cutDistance))
  let jawDropDistance := p.jawDrop * p.radius
  let jawWidthDistance := p.jawWidth * p.radius
  [ { name := "Sphere Center",
      position := ⟨jfin 0, jfin 0, jfin 0⟩,
      color := some "#ff00ff" },
    { name := "Crown",
      position := ⟨jfin 0, jfin p.radius, jfin 0⟩,
      color := some "#4ecdc4" },
    { name := "Hairline",
      position := getPointOnSphereFront p.hairlinePos p.radius,
      color := some "#ffd93d" },
    { name := "Brow",
      position := getPointOnSphereFront p.browPos p.radius,
      color := some "#ffd93d" },
    { name := "Eye Center",
      position := ⟨jfin 0, jfin eyeLineY, getFaceCurveZ eyeLineY p.radius chinY chinZ⟩,
      color := some "#ff6b6b" },
    { name := "Eye Left",
      position := ⟨jfin (-eyeWidthHalf), jfin eyeLineY,
        jsub (getFaceCurveZ eyeLineY p.radius chinY chinZ) (jfin eyeCurveDepth)⟩,
      color := some "#ff6b6b" },
    { name := "Eye Right",
      position := ⟨jfin eyeWidthHalf, jfin eyeLineY,
        jsub (getFaceCurveZ eyeLineY p.radius chinY chinZ) (jfin eyeCurveDepth)⟩,
      color := some "#ff6b6b" },
    { name := "Nose Center",
      position := ⟨jfin 0, jfin noseLineY, getFaceCurveZ noseLineY p.radius chinY chinZ⟩,
      color := some "#ff6b6b" },
    { name := "Nose Left",
      position := ⟨jfin (-noseWidthHalf), jfin noseLineY,
        jsub (getFaceCurveZ noseLineY p.radius chinY chinZ) (jfin noseCurveDepth)⟩,
      color := some "#ff6b6b" },
    { name := "Nose Right",
      position := ⟨jfin noseWidthHalf, jfin noseLineY,
        jsub (getFaceCurveZ noseLineY p.radius chinY chinZ) (jfin noseCurveDepth)⟩,
      color := some "#ff6b6b" },
    { name := "Mouth Center",
      position := ⟨jfin 0, jfin mouthLineY, getFaceCurveZ mouthLineY p.radius chinY chinZ⟩,
      color := some "#ff6b6b" },
    { name := "Mouth Left",
      position := ⟨jfin (-mouthWidthHalf), jfin mouthLineY,
        jsub (getFaceCurveZ mouthLineY p.radius chinY chinZ) (jfin mouthCurveDepth)⟩,
      color := some "#ff6b6b" },
    { name := "Mouth Right",
      position := ⟨jfin mouthWidthHalf, jfin mouthLineY,
        jsub (getFaceCurveZ mouthLineY p.radius chinY chinZ) (jfin mouthCurveDepth)⟩,
      color := some "#ff6b6b" },
    { name := "Chin",
      position := ⟨jfin 0, jfin chinY, jfin chinZ⟩,
      color := some "#45b7d1" },
    { name := "Chin Left",
      position := ⟨jfin (-chinWidthHalf), jfin chinY, jfin (chinZ - chinCurveHeight)⟩,
      color := some "#45b7d1" },
    { name := "Chin Right",
      position := ⟨jfin chinWidthHalf, jfin chinY, jfin (chinZ - chinCurveHeight)⟩,
      color := some "#45b7d1" },
    { name := "Jaw Start Left",
      position := ⟨jfin (-cutDistance), jneg rimRadius, jfin 0⟩,
      color := some "#45b7d1" },
    { name := "Jaw Start Right",
      position := ⟨jfin cutDistance, jneg rimRadius, jfin 0⟩,
      color := some "#45b7d1" },
    { name := "Jaw Drop Left",
      position := ⟨jfin (-jawWidthDistance),
        jsub (jneg rimRadius) (jfin jawDropDistance), jfin 0⟩,
      color := some "#45b7d1" },
    { name := "Jaw Drop Right",
      position := ⟨jfin jawWidthDistance,
        jsub (jneg rimRadius) (jfin jawDropDistance), jfin 0⟩,
      color := some "#45b7d1" } ]

/-! ## Rigid transform and orthographic projector (`landmarks.ts`) -/

/-- Componentwise vector addition on JavaScript numbers
(`THREE.Vector3.add`). -/
def jvadd (a b : Vec3 JsNum) : Vec3 JsNum :=
  ⟨jadd a.x b.x, jadd a.y b.y, jadd a.z b.z⟩

/-- `THREE.Vector3.applyQuaternion`:
`t = 2 (q.xyz × v)`, `v' = v + q.w t + q.xyz × t`. -/
def applyQuaternion (q : Quat) (v : Vec3 JsNum) : Vec3 JsNum :=
  let tx := jmul (jfin 2) (jsub (jmul (jfin q.y) v.z) (jmul (jfin q.z) v.y))
  let ty := jmul (jfin 2) (jsub (jmul (jfin q.z) v.x) (jmul (jfin q.x) v.z))
  let tz := jmul (jfin 2) (jsub (jmul (jfin q.x) v.y) (jmul (jfin q.y) v.x))
  ⟨jsub (jadd (jadd v.x (jmul (jfin q.w) tx)) (jmul (jfin q.y) tz))
      (jmul (jfin q.z) ty),
    jsub (jadd (jadd v.y (jmul (jfin q.w) ty)) (jmul (jfin q.z) tx))
      (jmul (jfin q.x) tz),
    jsub (jadd (jadd v.z (jmul (jfin q.w) tz)) (jmul (jfin q.x) ty))
      (jmul (jfin q.y) tx)⟩

/-- `transformLandmarks`: rotate each landmark position by the quaternion,
then add the pan offset `(pan.x, pan.y, 0)`. -/
def transformLandmarks (landmarks : List Landmark) (rotation : Quat)
    (pan : Pan) : List Landmark :=
  landmarks.map fun l =>
    { l with position := (jvadd (applyQuaternion rotation l.position)
        ⟨jfin pan.x, jfin pan.y, jfin 0⟩) }

/-- The `visible` flag of the projector: `pos.z >= 0` (false for NaN). -/
def jvisible : JsNum → Prop
  | some a => 0 ≤ a
  | none => False

/-- `projectLandmarks`: orthographic projection to canvas pixels,
`x = round(w/2 + pos.x)`, `y = round(h/2 − pos.y)`, `visible = pos.z ≥ 0`. -/
noncomputable def projectLandmarks (landmarks : List Landmark)
    (canvasWidth canvasHeight : ℝ) : List ProjectedLandmark :=
  landmarks.map fun l =>
    { name := l.name,
      x := jround (jadd (jfin (canvasWidth / 2)) l.position.x),
      y := jround (jsub (jfin (canvasHeight / 2)) l.position.y),
      visible := jvisible l.position.z }

/-- The component defaults of the scene component, with `radius = 100`
(the end-to-end configuration of the spec). -/
noncomputable def defaultParams100 : HeadParams :=
  { radius := 100
    sideCut := 0.66
    hairlinePos := 0.33
    browPos := 0
    eyeLinePos := -0.15
    nosePos := -0.5
    mouthPos := -0.75
    eyeWidth := 0.4
    noseWidth := 0.25
    mouthWidth := 0.3
    eyeCurve := 0.2
    noseCurve := 0.2
    mouthCurve := 0.2
    chinPos := 0.5
    chinWidth := 0.3
    chinCurve := 0.2
    chinLineCurve := 0
    jawDrop := 0.3
    jawWidth := 0.68 }

/-! ## Plane circle generator (geometry utilities) -/

/-- `THREE.Vector3.crossVectors`. -/
def cross (a b : Vec3 ℝ) : Vec3 ℝ :=
  ⟨a.y * b.z - a.z * b.y, a.z * b.x - a.x * b.z, a.x * b.y - a.y * b.x⟩

/-- `THREE.Vector3.normalize`: divide by the length, guarded by
`length || 1` so a zero vector stays zero. -/
noncomputable def vnormalize (v : Vec3 ℝ) : Vec3 ℝ :=
  let len := Real.sqrt (v.x * v.x + v.y * v.y + v.z * v.z)
  let l := if len = 0 then 1 else len
  ⟨v.x / l, v.y / l, v.z / l⟩

/-- `basisFromNormal`: pick the standard axis with the smallest absolute
component along `n` (tie-break X, then Y, then Z), then
`u = normalize(n × axis)`, `v = n × u`. -/
noncomputable def basisFromNormal (n : Vec3 ℝ) : Vec3 ℝ × Vec3 ℝ :=
  let absX := |n.x|
  let absY := |n.y|
  let absZ := |n.z|
  let axis : Vec3 ℝ :=
    if absX ≤ absY ∧ absX ≤ absZ then ⟨1, 0, 0⟩
    else if absY ≤ absZ then ⟨0, 1, 0⟩
    else ⟨0, 0, 1⟩
  let u := vnormalize (cross n axis)
  let v := cross n u
  (u, v)

/-- `circleOnPlane`: `segments + 1` points (closed: first = last) of the
circle of the given radius around `center` in the plane orthogonal to
`normal`; point `i` sits at angle `t = (i / segments) · 2π` along the basis
`(u, v)` built from the normalized normal. -/
noncomputable def circleOnPlane (center normal : Vec3 ℝ) (radius : ℝ)
    (segments : ℕ) : List (Vec3 ℝ) :=
  let uv := basisFromNormal (vnormalize normal)
  let u := uv.1
  let v := uv.2
  (List.range (segments + 1)).map fun (i : ℕ) =>
    let t := ((i : ℝ) / (segments : ℝ)) * Real.pi * 2
    ⟨u.x * (Real.cos t * radius) + v.x * (Real.sin t * radius) + center.x,
      u.y * (Real.cos t * radius) + v.y * (Real.sin t * radius) + center.y,
      u.z * (Real.cos t * radius) + v.z * (Real.sin t * radius) + center.z⟩

/-! ## Auxiliary definitions used by the claim statements -/

/-- Parameters hitting the unclamped rim-radius square root:
the defaults with `sideCut = 1.5`. -/
noncomputable def overCutParams : HeadParams :=
  { defaultParams100 with sideCut := 1.5 }

/-- The mirror image of a position across the `x = 0` plane. -/
def mirrorX (v : Vec3 JsNum) : Vec3 JsNum := ⟨jneg v.x, v.y, v.z⟩

/-- The landmark pair at indices `iL`, `iR` of `calculateLandmarks p` is an
exact mirror pair across `x = 0` (the left position is the right position
with the x-coordinate negated, y and z identical). -/
def mirroredAt (p : HeadParams) (iL iR : ℕ) : Prop :=
  ((calculateLandmarks p)[iL]?).map (fun l => l.position) =
    ((calculateLandmarks p)[iR]?).map fun l => mirrorX l.position

/-- Embed a finite real vector as a vector of JavaScript numbers. -/
def liftVec (v : Vec3 ℝ) : Vec3 JsNum := ⟨jfin v.x, jfin v.y, jfin v.z⟩

/-- View a `THREE.Quaternion` as a Mathlib quaternion (`w` is the real
part). -/
def toQuaternion (q : Quat) : Quaternion ℝ := ⟨q.w, q.x, q.y, q.z⟩

/-- View a 3D vector as a purely imaginary quaternion. -/
def vecQuaternion (v : Vec3 ℝ) : Quaternion ℝ := ⟨0, v.x, v.y, v.z⟩

/-- Mathematical rotation of a vector by a quaternion: the imaginary part
of the sandwich `q · (0, v) · q*`. -/
def specRotate (q : Quat) (v : Vec3 ℝ) : Vec3 ℝ :=
  let r := toQuaternion q * vecQuaternion v * star (toQuaternion q)
  ⟨r.imI, r.imJ, r.imK⟩

/-- The classification (front = `true`) of the first point of a sequence,
used to phrase order-preserving reconstruction from front/back runs. -/
def startFlag : List (Vec3 ℚ) → Bool
  | [] => true
  | p :: _ => decide (0 ≤ p.z)

/-- Interleave front runs and back runs back into one sequence, starting
with a front run when the flag is `true`.  This expresses "concatenating
all returned runs in their original relative order". -/
def reconstruct : Bool → List (List (Vec3 ℚ)) → List (List (Vec3 ℚ)) →
    List (Vec3 ℚ)
  | true, [], bs => bs.flatten
  | true, f :: fs, bs => f ++ reconstruct false fs bs
  | false, fs, [] => fs.flatten
  | false, fs, b :: bs => b ++ reconstruct true fs bs
termination_by _g fs bs => fs.length + bs.length

/-! ## Basic lemmas about JavaScript numbers -/

@[simp] theorem jadd_fin (a b : ℝ) : jadd (jfin a) (jfin b) = jfin (a + b) := rfl

@[simp] theorem jsub_fin (a b : ℝ) : jsub (jfin a) (jfin b) = jfin (a - b) := rfl

@[simp] theorem jmul_fin (a b : ℝ) : jmul (jfin a) (jfin b) = jfin (a * b) := rfl

@[simp] theorem jneg_fin (a : ℝ) : jneg (jfin a) = jfin (-a) := rfl

@[simp] theorem jfin_inj {a b : ℝ} : jfin a = jfin b ↔ a = b :=
  Option.some_inj

theorem jsqrt_of_neg {a : ℝ} (h : a < 0) : jsqrt (jfin a) = none := by
  simp [jsqrt, jfin, h]

@[simp] theorem jneg_none : jneg none = none := rfl

@[simp] theorem jsub_none_left (b : JsNum) : jsub none b = none := by
  cases b <;> rfl

@[simp] theorem jsub_none_right (a : JsNum) : jsub a none = none := by
  cases a <;> rfl

/-! ## Claim theorems -/

/-- C1 (counterexample): with the scene-component default parameters (at
`radius = 100`), `calculateLandmarks` emits 20 landmarks, not 21. -/
theorem c1_landmark_count_not_21 :
    ¬ ((calculateLandmarks defaultParams100).length = 21) := by
  simp [calculateLandmarks]

/-- C1 (amended): for every `HeadParameters` input, `calculateLandmarks`
emits a fixed, ordered list of exactly 20 named landmarks, with names
unique within one evaluation and exactly these verbatim name strings and
assigned colors. -/
theorem c1_landmark_names_and_colors (p : HeadParams) :
    ((calculateLandmarks p).map fun l => (l.name, l.color)) =
      [("Sphere Center", some "#ff00ff"),
       ("Crown", some "#4ecdc4"),
       ("Hairline", some "#ffd93d"),
       ("Brow", some "#ffd93d"),
       ("Eye Center", some "#ff6b6b"),
       ("Eye Left", some "#ff6b6b"),
       ("Eye Right", some "#ff6b6b"),
       ("Nose Center", some "#ff6b6b"),
       ("Nose Left", some "#ff6b6b"),
       ("Nose Right", some "#ff6b6b"),
       ("Mouth Center", some "#ff6b6b"),
       ("Mouth Left", some "#ff6b6b"),
       ("Mouth Right", some "#ff6b6b"),
       ("Chin", some "#45b7d1"),
       ("Chin Left", some "#45b7d1"),
       ("Chin Right", some "#45b7d1"),
       ("Jaw Start Left", some "#45b7d1"),
       ("Jaw Start Right", some "#45b7d1"),
       ("Jaw Drop Left", some "#45b7d1"),
       ("Jaw Drop Right", some "#45b7d1")] ∧
    ((calculateLandmarks p).map Landmark.name).Nodup := by
  constructor
  · rfl
  · show (["Sphere Center", "Crown", "Hairline", "Brow", "Eye Center",
      "Eye Left", "Eye Right", "Nose Center", "Nose Left", "Nose Right",
      "Mouth Center", "Mouth Left", "Mouth Right", "Chin", "Chin Left",
      "Chin Right", "Jaw Start Left", "Jaw Start Right", "Jaw Drop Left",
      "Jaw Drop Right"] : List String).Nodup
    decide

/-- C2 (divergence witness): for `sideCut > 1` (negative radicand) the
inline, unclamped `Math.sqrt` of `calculateLandmarks` makes the
y-coordinate of the `Jaw Start Left` and `Jaw Drop Left` landmarks
non-finite (NaN), while the clamped helper `calculateRimRadius` of the
geometry utilities returns 0 for the same configuration. -/
theorem c2_jaw_landmarks_nan (p : HeadParams) (h1 : 1 < p.sideCut)
    (h2 : 0 < p.radius) :
    ((calculateLandmarks p).map fun l => (l.name, l.position.y))[16]? =
      some ("Jaw Start Left", (none : JsNum)) ∧
    ((calculateLandmarks p).map fun l => (l.name, l.position.y))[18]? =
      some ("Jaw Drop Left", (none : JsNum)) ∧
    calculateRimRadius p.radius (p.sideCut * p.radius) = 0 := by
  have hneg : p.radius * p.radius -
      (p.sideCut * p.radius) * (p.sideCut * p.radius) < 0 := by
    have hs : 1 < p.sideCut * p.sideCut := by nlinarith
    nlinarith [mul_lt_mul_of_pos_right hs (mul_pos h2 h2)]
  have hrim := jsqrt_of_neg hneg
  refine ⟨?_, ?_, ?_⟩
  · simp [calculateLandmarks, hrim]
  · simp [calculateLandmarks, hrim]
  · simp [calculateRimRadius, max_eq_left hneg.le]

/-- C2 (witness): the divergence evaluated at `radius = 100`,
`sideCut = 1.5`. -/
theorem c2_jaw_landmarks_nan_witness :
    ((calculateLandmarks overCutParams).map
        fun l => (l.name, l.position.y))[16]? =
      some ("Jaw Start Left", (none : JsNum)) ∧
    ((calculateLandmarks overCutParams).map
        fun l => (l.name, l.position.y))[18]? =
      some ("Jaw Drop Left", (none : JsNum)) ∧
    calculateRimRadius overCutParams.radius
      (overCutParams.sideCut * overCutParams.radius) = 0 :=
  c2_jaw_landmarks_nan overCutParams
    (by norm_num [overCutParams, defaultParams100])
    (by norm_num [overCutParams, defaultParams100])

/-- C9: for every `HeadParameters`, the Eye, Nose, Mouth, Chin, Jaw Start
and Jaw Drop Left/Right landmark pairs of `calculateLandmarks` are exact
mirror images across the `x = 0` plane. -/
theorem c9_mirror_pairs (p : HeadParams) :
    mirroredAt p 5 6 ∧ mirroredAt p 8 9 ∧ mirroredAt p 11 12 ∧
      mirroredAt p 14 15 ∧ mirroredAt p 16 17 ∧ mirroredAt p 18 19 := by
  refine ⟨?_, ?_, ?_, ?_, ?_, ?_⟩ <;>
    simp [mirroredAt, mirrorX, calculateLandmarks, jneg, jfin]

/-- C10: `transformLandmarks` and `projectLandmarks` preserve the length,
the order and the per-element name (and, for `transformLandmarks`, the
color) of their input; only positions (resp. projected fields) change. -/
theorem c10_structure_preserved (lms : List Landmark) (q : Quat) (pan : Pan)
    (w h : ℝ) :
    ((transformLandmarks lms q pan).map fun l => (l.name, l.color)) =
      (lms.map fun l => (l.name, l.color)) ∧
    (transformLandmarks lms q pan).length = lms.length ∧
    ((projectLandmarks lms w h).map ProjectedLandmark.name) =
      (lms.map Landmark.name) ∧
    (projectLandmarks lms w h).length = lms.length := by
  refine ⟨?_, ?_, ?_, ?_⟩ <;> simp [transformLandmarks, projectLandmarks]

/-- Elementwise view of `transformLandmarks`. -/
theorem transformLandmarks_getElem (lms : List Landmark) (q : Quat)
    (pan : Pan) (n : ℕ) :
    (transformLandmarks lms q pan)[n]? = (lms[n]?).map fun l =>
      { l with position := (jvadd (applyQuaternion q l.position)
          ⟨jfin pan.x, jfin pan.y, jfin 0⟩) } := by
  simp [transformLandmarks]

/-- Elementwise view of `projectLandmarks`. -/
theorem projectLandmarks_getElem (lms : List Landmark) (w h : ℝ) (n : ℕ) :
    (projectLandmarks lms w h)[n]? = (lms[n]?).map fun l =>
      { name := l.name, x := jround (jadd (jfin (w / 2)) l.position.x),
        y := jround (jsub (jfin (h / 2)) l.position.y),
        visible := jvisible l.position.z } := by
  simp [projectLandmarks]

/-- C3: end to end, with the scene defaults at `radius = 100`, identity
rotation, zero pan and a 1920×1080 canvas, the `Crown` landmark sits at
exactly `(0, 100, 0)` in head space and projects to pixel `(960, 440)`,
visible. -/
theorem c3_crown_projection :
    (calculateLandmarks defaultParams100)[1]? =
      some { name := "Crown", position := ⟨jfin 0, jfin 100, jfin 0⟩,
             color := some "#4ecdc4" } ∧
    (∃ pl, (projectLandmarks
        (transformLandmarks (calculateLandmarks defaultParams100)
          identityQuat ⟨0, 0⟩) 1920 1080)[1]? = some pl ∧
      pl.name = "Crown" ∧ pl.x = some 960 ∧ pl.y = some 440 ∧ pl.visible) := by
  have hcrown : (calculateLandmarks defaultParams100)[1]? =
      some { name := "Crown", position := ⟨jfin 0, jfin 100, jfin 0⟩,
             color := some "#4ecdc4" } := by
    norm_num [calculateLandmarks, defaultParams100]
  refine ⟨hcrown, ?_⟩
  have h1 : (transformLandmarks (calculateLandmarks defaultParams100)
      identityQuat ⟨0, 0⟩)[1]? =
      some { name := "Crown", position := ⟨jfin 0, jfin 100, jfin 0⟩,
             color := some "#4ecdc4" } := by
    rw [transformLandmarks_getElem, hcrown]
    simp only [Option.map_some', applyQuaternion, jvadd, identityQuat, jfin,
      jmul, jadd, jsub, Option.some.injEq, Landmark.mk.injEq, Vec3.mk.injEq]
    norm_num
  refine ⟨⟨"Crown", some 960, some 440, jvisible (jfin 0)⟩, ?_, rfl, rfl, rfl,
    by norm_num [jvisible, jfin]⟩
  rw [projectLandmarks_getElem, h1]
  norm_num [jround, jadd, jsub, jfin, jvisible]

/-- C8: `transformLandmarks` maps each landmark position `p` to
`rotate(rotation, p) + (pan.x, pan.y, 0)` — the applied per-position map is
exactly quaternion rotation (for a unit quaternion, `THREE`'s formula
agrees with the quaternion sandwich `q · (0, v) · q*`) followed by the pan
offset with zero z-component — and with the identity rotation and zero pan
every (finite) landmark position is left unchanged (exactly, hence within
`1e-9`). -/
theorem c8_transform_rotate_then_pan (lms : List Landmark) (q : Quat)
    (pan : Pan) :
    transformLandmarks lms q pan = (lms.map fun l =>
      { l with position := (jvadd (applyQuaternion q l.position)
          ⟨jfin pan.x, jfin pan.y, jfin 0⟩) }) ∧
    (q.x ^ 2 + q.y ^ 2 + q.z ^ 2 + q.w ^ 2 = 1 →
      ∀ v : Vec3 ℝ, applyQuaternion q (liftVec v) = liftVec (specRotate q v)) ∧
    (q = identityQuat → pan.x = 0 → pan.y = 0 →
      (∀ l ∈ lms, ∃ v : Vec3 ℝ, l.position = liftVec v) →
      transformLandmarks lms q pan = lms) := by
  refine ⟨rfl, ?_, ?_⟩
  · intro hunit v
    refine Vec3.ext ?_ ?_ ?_ <;>
      simp only [applyQuaternion, liftVec, specRotate, toQuaternion,
        vecQuaternion, jadd_fin, jsub_fin, jmul_fin, jfin_inj,
        Quaternion.mul_imI, Quaternion.mul_imJ, Quaternion.mul_imK,
        Quaternion.mul_re, Quaternion.star_imI, Quaternion.star_imJ,
        Quaternion.star_imK, Quaternion.star_re]
    · linear_combination (-v.x) * hunit
    · linear_combination (-v.y) * hunit
    · linear_combination (-v.z) * hunit
  · intro hq hx hy hfin
    subst hq
    unfold transformLandmarks
    conv_rhs => rw [← List.map_id lms]
    refine List.map_congr_left fun l hl => ?_
    obtain ⟨v, hv⟩ := hfin l hl
    obtain ⟨nm, pos, col⟩ := l
    simp only at hv
    subst hv
    rw [hx, hy]
    simp only [applyQuaternion, identityQuat, liftVec, jvadd, jadd_fin,
      jsub_fin, jmul_fin, jneg_fin, id_eq, Landmark.mk.injEq, Vec3.mk.injEq,
      jfin_inj]
    norm_num

/-- C8 (witness): the identity-rotation, zero-pan invariance and the
rotation refinement, evaluated at a concrete landmark and vector. -/
theorem c8_transform_rotate_then_pan_witness :
    (applyQuaternion identityQuat (liftVec ⟨3, 4, 5⟩) =
      liftVec (specRotate identityQuat ⟨3, 4, 5⟩)) ∧
    transformLandmarks
        [⟨"Crown", ⟨jfin 0, jfin 100, jfin 0⟩, some "#4ecdc4"⟩]
        identityQuat ⟨0, 0⟩ =
      [⟨"Crown", ⟨jfin 0, jfin 100, jfin 0⟩, some "#4ecdc4"⟩] := by
  constructor
  · exact (c8_transform_rotate_then_pan [] identityQuat ⟨0, 0⟩).2.1
      (by norm_num [identityQuat]) ⟨3, 4, 5⟩
  · exact (c8_transform_rotate_then_pan
      [⟨"Crown", ⟨jfin 0, jfin 100, jfin 0⟩, some "#4ecdc4"⟩]
      identityQuat ⟨0, 0⟩).2.2 rfl rfl rfl
      (by
        intro l hl
        simp only [List.mem_singleton] at hl
        subst hl
        exact ⟨⟨0, 100, 0⟩, rfl⟩)

/-- The front runs of the splitter loop flatten to the front-classified
points, prefixed by the pending front run. -/
theorem sfbAux_front_flatten (pts : List (Vec3 ℚ)) :
    ∀ cf cb, ((sfbAux pts cf cb).1).flatten =
      cf ++ pts.filter fun p => decide (0 ≤ p.z) := by
  induction pts with
  | nil =>
      intro cf cb
      by_cases h : cf = [] <;> simp [sfbAux, h]
  | cons p rest ih =>
      intro cf cb
      by_cases hz : 0 ≤ p.z
      · by_cases hcb : cb = [] <;> simp [sfbAux, hz, hcb, ih]
      · by_cases hcf : cf = [] <;> simp [sfbAux, hz, hcf, ih]

/-- The back runs of the splitter loop flatten to the back-classified
points, prefixed by the pending back run. -/
theorem sfbAux_back_flatten (pts : List (Vec3 ℚ)) :
    ∀ cf cb, ((sfbAux pts cf cb).2).flatten =
      cb ++ pts.filter fun p => decide (p.z < 0) := by
  induction pts with
  | nil =>
      intro cf cb
      by_cases h : cb = [] <;> simp [sfbAux, h]
  | cons p rest ih =>
      intro cf cb
      by_cases hz : 0 ≤ p.z
      · by_cases hcb : cb = [] <;>
          simp [sfbAux, hz, hcb, ih, not_le.mpr, not_lt.mpr hz]
      · by_cases hcf : cf = [] <;>
          simp [sfbAux, hz, hcf, ih, not_le.mp hz]

/-- Every front run emitted by the splitter loop is nonempty and consists
of front-classified points (given that the pending front run does). -/
theorem sfbAux_front_runs (pts : List (Vec3 ℚ)) :
    ∀ cf cb, (∀ q ∈ cf, 0 ≤ q.z) →
      ∀ s ∈ (sfbAux pts cf cb).1, s ≠ [] ∧ ∀ q ∈ s, 0 ≤ q.z := by
  induction pts with
  | nil =>
      intro cf cb hcf s hs
      by_cases h : cf = []
      · simp [sfbAux, h] at hs
      · simp only [sfbAux, if_neg h, List.mem_singleton] at hs
        subst hs
        exact ⟨h, hcf⟩
  | cons p rest ih =>
      intro cf cb hcf s hs
      have hext : ∀ q ∈ cf ++ [p], 0 ≤ p.z → 0 ≤ q.z := by
        intro q hq hz
        rcases List.mem_append.mp hq with h | h
        · exact hcf q h
        · simp only [List.mem_singleton] at h
          subst h
          exact hz
      by_cases hz : 0 ≤ p.z
      · by_cases hcb : cb = []
        · simp only [sfbAux, if_pos hz, if_pos hcb] at hs
          exact ih (cf ++ [p]) cb (fun q hq => hext q hq hz) s hs
        · simp only [sfbAux, if_pos hz, if_neg hcb] at hs
          exact ih (cf ++ [p]) [] (fun q hq => hext q hq hz) s hs
      · by_cases hcf0 : cf = []
        · simp only [sfbAux, if_neg hz, if_pos hcf0] at hs
          exact ih cf (cb ++ [p]) hcf s hs
        · simp only [sfbAux, if_neg hz, if_neg hcf0, List.mem_cons] at hs
          rcases hs with h | h
          · subst h
            exact ⟨hcf0, hcf⟩
          · exact ih [] (cb ++ [p]) (by simp) s h

/-- Every back run emitted by the splitter loop is nonempty and consists
of back-classified points (given that the pending back run does). -/
theorem sfbAux_back_runs (pts : List (Vec3 ℚ)) :
    ∀ cf cb, (∀ q ∈ cb, q.z < 0) →
      ∀ s ∈ (sfbAux pts cf cb).2, s ≠ [] ∧ ∀ q ∈ s, q.z < 0 := by
  induction pts with
  | nil =>
      intro cf cb hcb s hs
      by_cases h : cb = []
      · simp [sfbAux, h] at hs
      · simp only [sfbAux, if_neg h, List.mem_singleton] at hs
        subst hs
        exact ⟨h, hcb⟩
  | cons p rest ih =>
      intro cf cb hcb s hs
      have hext : ∀ q ∈ cb ++ [p], p.z < 0 → q.z < 0 := by
        intro q hq hz
        rcases List.mem_append.mp hq with h | h
        · exact hcb q h
        · simp only [List.mem_singleton] at h
          subst h
          exact hz
      by_cases hz : 0 ≤ p.z
      · by_cases hcb0 : cb = []
        · simp only [sfbAux, if_pos hz, if_pos hcb0] at hs
          exact ih (cf ++ [p]) cb hcb s hs
        · simp only [sfbAux, if_pos hz, if_neg hcb0, List.mem_cons] at hs
          rcases hs with h | h
          · subst h
            exact ⟨hcb0, hcb⟩
          · exact ih (cf ++ [p]) [] (by simp) s h
      · by_cases hcf : cf = []
        · simp only [sfbAux, if_neg hz, if_pos hcf] at hs
          exact ih cf (cb ++ [p]) (fun q hq => hext q hq (not_le.mp hz)) s hs
        · simp only [sfbAux, if_neg hz, if_neg hcf] at hs
          exact ih [] (cb ++ [p]) (fun q hq => hext q hq (not_le.mp hz)) s hs

/-- Interleaving the runs produced by the splitter loop, starting with the
pending run's class, rebuilds the pending run followed by the remaining
input. -/
theorem sfbAux_reconstruct (pts : List (Vec3 ℚ)) :
    ∀ cf cb,
      (cb = [] → cf ≠ [] →
        reconstruct true (sfbAux pts cf cb).1 (sfbAux pts cf cb).2 =
          cf ++ pts) ∧
      (cf = [] → cb ≠ [] →
        reconstruct false (sfbAux pts cf cb).1 (sfbAux pts cf cb).2 =
          cb ++ pts) := by
  induction pts with
  | nil =>
      intro cf cb
      constructor
      · intro hcb hcf
        subst hcb
        simp [sfbAux, hcf, reconstruct]
      · intro hcf hcb
        subst hcf
        simp [sfbAux, hcb, reconstruct]
  | cons p rest ih =>
      intro cf cb
      constructor
      · intro hcb hcf
        subst hcb
        by_cases hz : 0 ≤ p.z
        · simp only [sfbAux, if_pos hz, eq_self_iff_true, if_true]
          have h := (ih (cf ++ [p]) []).1 rfl (by simp)
          rw [h]
          simp
        · simp only [sfbAux, if_neg hz, if_neg hcf]
          have h := (ih [] ([] ++ [p])).2 rfl (by simp)
          rw [reconstruct, h]
          simp
      · intro hcf hcb
        subst hcf
        by_cases hz : 0 ≤ p.z
        · simp only [sfbAux, if_pos hz, if_neg hcb]
          have h := (ih ([] ++ [p]) []).1 rfl (by simp)
          rw [reconstruct, h]
          simp
        · simp only [sfbAux, if_neg hz, eq_self_iff_true, if_true]
          have h := (ih [] (cb ++ [p])).2 rfl (by simp)
          rw [h]
          simp

/-- C4: for every input sequence, `splitFrontBack` puts exactly the
`z ≥ 0` points (in order) into nonempty front runs and exactly the `z < 0`
points (in order) into nonempty back runs, synthesizing no boundary
points, and interleaving the returned runs in their original relative
order reconstructs exactly the input sequence (same total point count,
same order). -/
theorem c4_splitFrontBack_partition (pts : List (Vec3 ℚ)) :
    ((splitFrontBack pts).front.flatten =
      pts.filter fun p => decide (0 ≤ p.z)) ∧
    ((splitFrontBack pts).back.flatten =
      pts.filter fun p => decide (p.z < 0)) ∧
    (∀ s ∈ (splitFrontBack pts).front, s ≠ [] ∧ ∀ q ∈ s, 0 ≤ q.z) ∧
    (∀ s ∈ (splitFrontBack pts).back, s ≠ [] ∧ ∀ q ∈ s, q.z < 0) ∧
    reconstruct (startFlag pts) (splitFrontBack pts).front
      (splitFrontBack pts).back = pts := by
  refine ⟨?_, ?_, ?_, ?_, ?_⟩
  · simpa [splitFrontBack] using sfbAux_front_flatten pts [] []
  · simpa [splitFrontBack] using sfbAux_back_flatten pts [] []
  · simpa [splitFrontBack] using sfbAux_front_runs pts [] [] (by simp)
  · simpa [splitFrontBack] using sfbAux_back_runs pts [] [] (by simp)
  · cases pts with
    | nil => simp [splitFrontBack, sfbAux, startFlag, reconstruct]
    | cons p rest =>
        by_cases hz : 0 ≤ p.z
        · have h := (sfbAux_reconstruct rest ([] ++ [p]) []).1 rfl (by simp)
          simp only [startFlag, splitFrontBack, sfbAux, if_pos hz, eq_self_iff_true, if_true]
          simpa [hz] using h
        · have h := (sfbAux_reconstruct rest [] ([] ++ [p])).2 rfl (by simp)
          simp only [startFlag, splitFrontBack, sfbAux, if_neg hz, eq_self_iff_true, if_true]
          simpa [hz] using h

/-- Every segment emitted by the clipper loop has at least two points,
whatever the pending segment is. -/
theorem clipAux_min_length (d : ℚ) (rest : List (Vec3 ℚ)) :
    ∀ prev cur, ∀ s ∈ clipAux d prev rest cur, 2 ≤ s.length := by
  induction rest with
  | nil =>
      intro prev cur s hs
      simp only [clipAux] at hs
      by_cases h : 2 ≤ cur.length
      · simp only [if_pos h, List.mem_singleton] at hs
        subst hs
        exact h
      · simp [if_neg h] at hs
  | cons curr rest ih =>
      intro prev cur s hs
      simp only [clipAux] at hs
      cases hp : isInside d prev <;> cases hc : isInside d curr <;>
        simp only [hp, hc] at hs
      · -- both outside
        by_cases hcross :
            (prev.x < -d ∧ d < curr.x) ∨ (d < prev.x ∧ curr.x < -d)
        · simp only [if_pos hcross] at hs
          cases h1 : intersectX prev curr (-d) with
          | none =>
              cases h2 : intersectX prev curr d <;>
                simp only [h1, h2] at hs <;>
                exact ih curr cur s hs
          | some i1 =>
              cases h2 : intersectX prev curr d with
              | none =>
                  simp only [h1, h2] at hs
                  exact ih curr cur s hs
              | some i2 =>
                  simp only [h1, h2, List.mem_append] at hs
                  by_cases hdir : prev.x < curr.x
                  · simp only [if_pos hdir, List.mem_singleton] at hs
                    rcases hs with h | h
                    · subst h
                      simp
                    · exact ih curr cur s h
                  · simp only [if_neg hdir, List.mem_singleton] at hs
                    rcases hs with h | h
                    · subst h
                      simp
                    · exact ih curr cur s h
        · simp only [if_neg hcross] at hs
          exact ih curr cur s hs
      · -- entering the band
        cases hint : intersectX prev curr (if d < prev.x then d else -d) with
        | none =>
            simp only [hint] at hs
            exact ih curr [curr] s hs
        | some q =>
            simp only [hint] at hs
            exact ih curr [q, curr] s hs
      · -- exiting the band
        cases hint : intersectX prev curr (if d < curr.x then d else -d) with
        | none =>
            simp only [hint, List.mem_append] at hs
            rcases hs with h | h
            · by_cases h2 : 2 ≤ cur.length
              · simp only [if_pos h2, List.mem_singleton] at h
                subst h
                exact h2
              · rw [if_neg h2] at h
                simp at h
            · exact ih curr [] s h
        | some q =>
            simp only [hint, List.mem_append] at hs
            rcases hs with h | h
            · by_cases h2 : 2 ≤ (cur ++ [q]).length
              · simp only [if_pos h2, List.mem_singleton] at h
                subst h
                exact h2
              · rw [if_neg h2] at h
                simp at h
            · exact ih curr [] s h
      · -- both inside
        exact ih curr (cur ++ [curr]) s hs

/-- C6: for every input point list and every `d ≥ 0`, every segment
returned by `clipToSideBand` contains at least two points (a pending run
that would close with fewer than two points is discarded, not emitted). -/
theorem c6_clip_segments_min_length (points : List (Vec3 ℚ)) (d : ℚ)
    (_hd : 0 ≤ d) : ∀ s ∈ clipToSideBand points d, 2 ≤ s.length := by
  intro s hs
  unfold clipToSideBand at hs
  by_cases hlen : points.length < 2
  · rw [if_pos hlen] at hs
    simp at hs
  · rw [if_neg hlen] at hs
    cases points with
    | nil => simp at hs
    | cons p0 rest => exact clipAux_min_length d rest p0 _ s hs

/-- C6 (witness): the invariant evaluated on a concrete polyline crossing
the band. -/
theorem c6_clip_segments_min_length_witness :
    (0 : ℚ) ≤ 1 ∧
      ∀ s ∈ clipToSideBand
        [⟨0, 0, 0⟩, ⟨2, 1, 0⟩, ⟨1/2, 2, 0⟩, ⟨-3, 3, 0⟩] 1, 2 ≤ s.length :=
  ⟨by norm_num,
    c6_clip_segments_min_length
      [⟨0, 0, 0⟩, ⟨2, 1, 0⟩, ⟨1/2, 2, 0⟩, ⟨-3, 3, 0⟩] 1 (by norm_num)⟩

/-- When the leading point and every remaining point lie inside the band,
the clipper loop just extends the pending segment with all remaining
points (flushing at the end). -/
theorem clipAux_all_inside (d : ℚ) (rest : List (Vec3 ℚ)) :
    ∀ prev cur, isInside d prev = true →
      (∀ p ∈ rest, isInside d p = true) →
      clipAux d prev rest cur =
        if 2 ≤ (cur ++ rest).length then [cur ++ rest] else [] := by
  induction rest with
  | nil =>
      intro prev cur _ _
      simp [clipAux]
  | cons curr rest ih =>
      intro prev cur hprev hrest
      have hcurr : isInside d curr = true := hrest curr (by simp)
      simp only [clipAux, hprev, hcurr]
      rw [ih curr (cur ++ [curr]) hcurr fun p hp => hrest p (by simp [hp])]
      have hassoc : cur ++ [curr] ++ rest = cur ++ curr :: rest := by simp
      rw [hassoc]

/-- C5: for every point list with at least 2 points and every `d` at least
the maximum `|x|` over all points, `clipToSideBand` returns the original
points, unchanged, as a single segment. -/
theorem c5_clip_inside_is_identity (points : List (Vec3 ℚ)) (d : ℚ)
    (hlen : 2 ≤ points.length) (hin : ∀ p ∈ points, |p.x| ≤ d) :
    clipToSideBand points d = [points] := by
  have hin' : ∀ p ∈ points, isInside d p = true := by
    intro p hp
    have : |p.x| ≤ d + EPS := le_trans (hin p hp) (by norm_num [EPS])
    simpa [isInside] using this
  unfold clipToSideBand
  rw [if_neg (by omega)]
  cases points with
  | nil => simp at hlen
  | cons p0 rest =>
      show clipAux d p0 rest (if isInside d p0 = true then [p0] else []) =
        [p0 :: rest]
      rw [if_pos (hin' p0 (by simp))]
      rw [clipAux_all_inside d rest p0 [p0] (hin' p0 (by simp))
        fun p hp => hin' p (by simp [hp])]
      rw [if_pos (by simpa using hlen)]
      simp

/-- C5 (witness): a concrete closed polyline (first point repeated last),
entirely inside the band, is returned unchanged as one segment — including
its closure duplicate. -/
theorem c5_clip_inside_is_identity_witness :
    2 ≤ ([⟨1, 0, 0⟩, ⟨-2, 1, 0⟩, ⟨0, 2, 5⟩, ⟨1, 0, 0⟩] :
        List (Vec3 ℚ)).length ∧
    (∀ p ∈ ([⟨1, 0, 0⟩, ⟨-2, 1, 0⟩, ⟨0, 2, 5⟩, ⟨1, 0, 0⟩] :
        List (Vec3 ℚ)), |p.x| ≤ 3) ∧
    clipToSideBand [⟨1, 0, 0⟩, ⟨-2, 1, 0⟩, ⟨0, 2, 5⟩, ⟨1, 0, 0⟩] 3 =
      [[⟨1, 0, 0⟩, ⟨-2, 1, 0⟩, ⟨0, 2, 5⟩, ⟨1, 0, 0⟩]] :=
  ⟨by decide, by decide,
    c5_clip_inside_is_identity [⟨1, 0, 0⟩, ⟨-2, 1, 0⟩, ⟨0, 2, 5⟩, ⟨1, 0, 0⟩]
      3 (by decide) (by decide)⟩

/-- C7: `circleOnPlane` around the origin with normal `(0, 0, 1)`, radius 1
and 4 segments returns exactly the closed 5-point sequence
`(0,1,0), (-1,0,0), (0,-1,0), (1,0,0), (0,1,0)` — the helper-axis tie-break
selects X, giving the basis `u = (0,1,0)`, `v = (-1,0,0)`, with point `i`
at angle `(i/segments)·2π`. -/
theorem c7_circle_four_segments :
    circleOnPlane ⟨0, 0, 0⟩ ⟨0, 0, 1⟩ 1 4 =
      [⟨0, 1, 0⟩, ⟨-1, 0, 0⟩, ⟨0, -1, 0⟩, ⟨1, 0, 0⟩, ⟨0, 1, 0⟩] := by
  have hn : vnormalize (⟨0, 0, 1⟩ : Vec3 ℝ) = ⟨0, 0, 1⟩ := by
    simp only [vnormalize]
    norm_num
  have hb : basisFromNormal (⟨0, 0, 1⟩ : Vec3 ℝ) =
      (⟨0, 1, 0⟩, ⟨-1, 0, 0⟩) := by
    simp only [basisFromNormal, cross]
    norm_num [vnormalize]
  have hc0 : Real.cos (((0:ℕ):ℝ) / ((4:ℕ):ℝ) * Real.pi * 2) = 1 := by
    norm_num
  have hs0 : Real.sin (((0:ℕ):ℝ) / ((4:ℕ):ℝ) * Real.pi * 2) = 0 := by
    norm_num
  have ht1 : ((1:ℕ):ℝ) / ((4:ℕ):ℝ) * Real.pi * 2 = Real.pi / 2 := by
    push_cast
    ring
  have hc1 : Real.cos (((1:ℕ):ℝ) / ((4:ℕ):ℝ) * Real.pi * 2) = 0 := by
    rw [ht1, Real.cos_pi_div_two]
  have hs1 : Real.sin (((1:ℕ):ℝ) / ((4:ℕ):ℝ) * Real.pi * 2) = 1 := by
    rw [ht1, Real.sin_pi_div_two]
  have ht2 : ((2:ℕ):ℝ) / ((4:ℕ):ℝ) * Real.pi * 2 = Real.pi := by
    push_cast
    ring
  have hc2 : Real.cos (((2:ℕ):ℝ) / ((4:ℕ):ℝ) * Real.pi * 2) = -1 := by
    rw [ht2, Real.cos_pi]
  have hs2 : Real.sin (((2:ℕ):ℝ) / ((4:ℕ):ℝ) * Real.pi * 2) = 0 := by
    rw [ht2, Real.sin_pi]
  have ht3 : ((3:ℕ):ℝ) / ((4:ℕ):ℝ) * Real.pi * 2 =
      Real.pi + Real.pi / 2 := by
    push_cast
    ring
  have hc3 : Real.cos (((3:ℕ):ℝ) / ((4:ℕ):ℝ) * Real.pi * 2) = 0 := by
    rw [ht3, Real.cos_add]
    simp
  have hs3 : Real.sin (((3:ℕ):ℝ) / ((4:ℕ):ℝ) * Real.pi * 2) = -1 := by
    rw [ht3, Real.sin_add]
    simp
  have ht4 : ((4:ℕ):ℝ) / ((4:ℕ):ℝ) * Real.pi * 2 = 2 * Real.pi := by
    push_cast
    ring
  have hc4 : Real.cos (((4:ℕ):ℝ) / ((4:ℕ):ℝ) * Real.pi * 2) = 1 := by
    rw [ht4, Real.cos_two_pi]
  have hs4 : Real.sin (((4:ℕ):ℝ) / ((4:ℕ):ℝ) * Real.pi * 2) = 0 := by
    rw [ht4, Real.sin_two_pi]
  have hr : List.range 5 = [0, 1, 2, 3, 4] := rfl
  unfold circleOnPlane
  rw [hn, hb, hr]
  simp only [List.map_cons, List.map_nil]
  rw [hc0, hs0, hc1, hs1, hc2, hs2, hc3, hs3, hc4, hs4]
  norm_num

end Loomis
